import Mathlib

/-!
Verification development for the `mongoutil` document-store adapter.

The adapter is a thin Go layer over the mgo MongoDB driver.  We embed the
adapter's own logic shallowly and treat the driver and other external
libraries as an environment supplied through explicit arguments:

* Go `map[string]interface{}` records become association lists
  `List (String × Val)`; Go map read/assignment become `getVal`/`setVal`,
  and the merge loop of `Update` becomes a fold of `setVal`.
* `json.Unmarshal` (standard library, outside this repository) is modelled
  by its observable outcome: a query-string parameter is either
  `JsonInput.malformed e` (the decoder failed, `e` is the decode error's
  text, the target interface value stays nil) or `JsonInput.valid v`
  (decoded Go value `v`, where `none` is the nil interface produced by
  JSON `null`).  JSON numbers are carried as exact rationals; Go's
  `int(float64)` conversion truncates toward zero, which on rationals is
  `q.num.tdiv q.den` (`Int.tdiv` is toward-zero division; the `/` of
  `Int` would floor instead).  Compound JSON values keep
  only their kind and raw text: the adapter never inspects their content,
  it hands them to the driver verbatim.
* Driver calls (`Insert`, `FindId`, `UpdateId`, `RemoveId`, `All`) are
  oracles passed as arguments: a sequence of per-attempt errors for the
  retried calls and direct outcomes for the others.
* `time.Now().Unix()` is an explicit `now : Int` argument;
  `float64(now)` is exact for realistic times and is modelled as the
  rational coercion, `int32(now)` wraps modulo 2^32 (`int32wrap`).
* `bson.NewObjectId().Hex()` is an explicit `freshId : String` argument.
* A Go expression whose evaluation panics (indexing `paramArray[0]` on an
  empty slice) is modelled by an `Option`-wrapped result, `none` standing
  for the panic.

The parameter multimaps handed to `Query` come from the hosting
framework's query-string parsing, which never stores a nil slice under a
present key; accordingly a present key is bound to a (possibly empty)
list and the Go test `parameters[k] != nil` is membership of `k`.
-/

namespace Mongoutil

/-! ### constants.go -/

/-- Field `_id` (constants.go). -/
def ID : String := "_id"

/-- Field `createdAt` (constants.go). -/
def CreatedAt : String := "createdAt"

/-- Field `updatedAt` (constants.go). -/
def UpdatedAt : String := "updatedAt"

/-! ### Records (Go `map[string]interface{}`) -/

/-- Values stored in a record.  Floats are exact rationals; `vInt32` marks
values produced by Go's `int32(...)` conversion; `vOther s` stands for any
other value the adapter only passes through. -/
inductive Val where
  | vStr (s : String)
  | vFloat (q : ℚ)
  | vInt32 (n : Int)
  | vBool (b : Bool)
  | vOther (tag : String)
deriving DecidableEq

/-- A Go `map[string]interface{}` record, as an association list. -/
abbrev Record := List (String × Val)

/-- Go map read `r[k]` (comma-ok form yields `Option`). -/
def getVal : Record → String → Option Val
  | [], _ => none
  | (k', v) :: rest, k => if k' = k then some v else getVal rest k

/-- Go map assignment `r[k] = v`. -/
def setVal : Record → String → Val → Record
  | [], k, v => [(k, v)]
  | (k', v') :: rest, k, v =>
      if k' = k then (k, v) :: rest else (k', v') :: setVal rest k v

/-- The Go loop `for k, v := range entries { base[k] = v }`. -/
def mergeInto (base : Record) (entries : Record) : Record :=
  entries.foldl (fun acc kv => setVal acc kv.1 kv.2) base

/-! ### Errors -/

/-- `utils.Error` from rihtim/core: HTTP-style code plus message. -/
structure UErr where
  code : Nat
  message : String
deriving DecidableEq

/-- Errors produced by the mgo driver.  `notFound` is `mgo.ErrNotFound`
(whose `Error()` text is "not found"); `other` is any other driver
error with its text. -/
inductive MgoErr where
  | notFound
  | other (msg : String)
deriving DecidableEq

/-- `err.Error()` for a driver error. -/
def mgoMsg : MgoErr → String
  | .notFound => "not found"
  | .other m => m

/-! ### retry (part_000 lines 510-541)

The retried closure is stateful in Go; we model it by the sequence of its
outcomes: `f i` is what the (i+1)-th call returns (`none` = success). -/

/-- The body of `retry`'s loop.  `i` is the Go loop counter and `fuel`
is `attempts - 1 - i` clamped at zero: the loop breaks exactly when
`i >= attempts - 1`, i.e. when `fuel = 0` (at `fuel = 0` a not-found
error and the break both return the current error, so the branches
coincide).  Returns the final `err` together with the number of calls
made. -/
def retryGo (f : Nat → Option MgoErr) : Nat → Nat → Option MgoErr × Nat
  | 0, i =>
    match f i with
    | none => (none, i + 1)
    | some e => (some e, i + 1)
  | fuel' + 1, i =>
    match f i with
    | none => (none, i + 1)
    | some e =>
      if e = MgoErr.notFound then (some e, i + 1)
      else retryGo f fuel' (i + 1)

/-- `retry` instrumented with the number of attempts actually made. -/
def retryCount (attempts : Int) (f : Nat → Option MgoErr) : Option MgoErr × Nat :=
  retryGo f (attempts - 1).toNat 0

/-- `retry(attempts, function)`: the error it returns. -/
def retry (attempts : Int) (f : Nat → Option MgoErr) : Option MgoErr :=
  (retryCount attempts f).1

/-- Index of the attempt at which the loop stops, starting from loop
counter `i` with `fuel` further iterations allowed: the first attempt
that succeeds or fails with the not-found error, else the last allowed
one.  Characterizes `retryGo` (see `retryGo_eq_firstHalt`). -/
def firstHaltIndex (f : Nat → Option MgoErr) : Nat → Nat → Nat
  | 0, i => i
  | fuel' + 1, i =>
    match f i with
    | none => i
    | some e =>
      if e = MgoErr.notFound then i
      else firstHaltIndex f fuel' (i + 1)

/-! ### Query parameters and the extraction helpers (part_000 lines 435-508)

A query-string value reaches the helpers as a raw string which they feed
to `json.Unmarshal`; we model it by the decoder's outcome (`JsonInput`). -/

/-- A decoded Go `interface{}` value produced by `json.Unmarshal`.
Numbers are decoded as `float64`, modelled exactly as rationals; arrays
and objects are kept opaque (kind plus raw text) since the adapter never
looks inside them. -/
inductive JVal where
  | num (q : ℚ)
  | str (s : String)
  | boolV (b : Bool)
  | arr (raw : String)
  | obj (raw : String)
deriving DecidableEq

/-- Outcome of `json.Unmarshal` on one query-string value.  `malformed e`:
the decoder failed with error text `e` and the target stays nil.
`valid v`: decoding succeeded with Go value `v` (`none` = JSON null,
which leaves the interface nil). -/
inductive JsonInput where
  | malformed (errText : String)
  | valid (v : Option JVal)
deriving DecidableEq

/-- The `map[string][]string` parameter multimap. -/
abbrev Params := List (String × List JsonInput)

/-- Go map read `parameters[key]` in comma-ok form. -/
def lookupParam : Params → String → Option (List JsonInput)
  | [], _ => none
  | (k', v) :: rest, k => if k' = k then some v else lookupParam rest k

/-- `extractJsonParameter` (lines 435-450): unmarshal `paramArray[0]` into
a generic value.  Result `none` models the Go panic when the key is bound
to an empty slice (indexing `paramArray[0]`). -/
def extractJsonParameter (ps : Params) (key : String) :
    Option (Option JVal × Bool × Option UErr) :=
  match lookupParam ps key with
  | none => some (none, false, none)
  | some [] => none
  | some (p :: _) =>
    match p with
    | .malformed errText =>
        some (none, true,
          some ⟨400, "Parsing " ++ key ++ " parameter failed. Reason: " ++ errText⟩)
    | .valid v => some (v, true, none)

/-- `extractStringParameter` (lines 452-479).  On a decode failure the
parse error is assigned but then overwritten: the decoded value is nil,
so the reflect kind test fails and replaces the error. -/
def extractStringParameter (ps : Params) (key : String) :
    Option (String × Bool × Option UErr) :=
  match lookupParam ps key with
  | none => some ("", false, none)
  | some [] => none
  | some (p :: _) =>
    match p with
    | .valid (some (JVal.str s)) => some (s, true, none)
    | _ =>
        some ("", true, some ⟨400, "The key '" ++ key ++ "' must be a valid string."⟩)

/-- Go's `int(f)` on a `float64` truncates toward zero; on the exact
rational carried by `JVal.num` this is toward-zero (`tdiv`) division of
the numerator by the (positive) denominator: `truncQ` of -19/10 is -1,
as Go's `int(-1.9)`, where floor division would give -2. -/
def truncQ (q : ℚ) : Int := q.num.tdiv q.den

/-- `extractIntParameter` (lines 481-508).  Same overwrite as for strings:
any non-`float64` decoded value (including a failed decode, which leaves
nil) yields the "must be an integer" error; a decoded number is truncated
toward zero by `int(...)`. -/
def extractIntParameter (ps : Params) (key : String) :
    Option (Int × Bool × Option UErr) :=
  match lookupParam ps key with
  | none => some (0, false, none)
  | some [] => none
  | some (p :: _) =>
    match p with
    | .valid (some (JVal.num q)) => some (truncQ q, true, none)
    | _ =>
        some (0, true, some ⟨400, "The key '" ++ key ++ "' must be an integer."⟩)

/-! ### Query (part_000 lines 145-235) -/

/-- The driver query `Query` ends up executing: an aggregation pipeline or
a find with skip/limit and optional sort. -/
inductive QueryPlan where
  | pipe (aggregate : Option JVal)
  | find (whereV : Option JVal) (skip limit : Int) (sort : Option String)

/-- `Query`'s response map: `results` is `some l` when the "results" key
was set, `none` when the map was left empty (error returns). -/
structure QueryResponse where
  results : Option (List Record)
deriving DecidableEq

/-- One `if xErr != nil { err = xErr }` step: a later non-nil error
overwrites the current one. -/
def overrideErr (old new : Option UErr) : Option UErr :=
  match new with
  | some e => some e
  | none => old

/-- `Query(collection, parameters)`.  The driver is the oracle `db`,
giving for each plan the per-attempt error sequence of the retried
`All` call and the slice it fills on success (`none` = nil slice).
Result `none` models a panic inside a parameter extraction. -/
def Query (collection : String) (ps : Params)
    (db : QueryPlan → (Nat → Option MgoErr) × Option (List Record)) :
    Option (QueryResponse × Option UErr) :=
  if (lookupParam ps "aggregate").isSome && (lookupParam ps "where").isSome then
    some (⟨none⟩,
      some ⟨400, "Where and aggregate parameters cannot be used at the same request."⟩)
  else
    match extractJsonParameter ps "where", extractJsonParameter ps "aggregate",
          extractStringParameter ps "sort", extractIntParameter ps "limit",
          extractIntParameter ps "skip" with
    | some (whereV, hasWhere, whereErr), some (aggV, hasAgg, aggErr),
      some (sortV, hasSort, sortErr), some (limitV, _, limitErr),
      some (skipV, _, skipErr) =>
      match overrideErr (overrideErr (overrideErr
              (overrideErr (overrideErr none aggErr) whereErr) sortErr) limitErr)
              skipErr with
      | some e => some (⟨none⟩, some e)
      | none =>
        if hasWhere && hasAgg then
          some (⟨none⟩, some ⟨500, "Aggregation cannot be used with where parameter."⟩)
        else
          let plan : QueryPlan :=
            if hasAgg then QueryPlan.pipe aggV
            else QueryPlan.find whereV skipV limitV (if hasSort then some sortV else none)
          let out := db plan
          match retry 5 out.1 with
          | some ge =>
              some (⟨none⟩,
                some ⟨500, "Querying items from database failed. Reason: " ++ mgoMsg ge⟩)
          | none => some (⟨some (out.2.getD [])⟩, none)
    | _, _, _, _, _ => none

/-! ### Create (part_000 lines 65-105) -/

/-- Go `int32(n)`: wrap into the signed 32-bit range. -/
def int32wrap (n : Int) : Int := (n + 2 ^ 31) % 2 ^ 32 - 2 ^ 31

/-- `Create(collection, data)`.  `now` is `time.Now().Unix()`, `freshId`
is `bson.NewObjectId().Hex()`, and `insertAttempts` is the per-attempt
outcome sequence of the retried `connection.Insert(data)`. -/
def Create (collection : String) (data : Record) (now : Int) (freshId : String)
    (insertAttempts : Nat → Option MgoErr) : Option Record × Option UErr :=
  let data1 :=
    match getVal data ID with
    | some _ => data
    | none => setVal data ID (Val.vStr freshId)
  let data2 := setVal (setVal data1 CreatedAt (Val.vFloat (now : ℚ)))
                 UpdatedAt (Val.vFloat (now : ℚ))
  match retry 5 insertAttempts with
  | some e => (none, some ⟨500, mgoMsg e⟩)
  | none =>
      (some [(ID, (getVal data2 ID).getD (Val.vStr "")),
             (CreatedAt, Val.vFloat (now : ℚ)),
             (UpdatedAt, Val.vFloat (now : ℚ))],
       none)

/-! ### Update (part_000 lines 237-291) -/

/-- Outcome of `Update`, instrumented with the record handed to
`connection.UpdateId` (`written = none` when no write was attempted). -/
structure UpdateResult where
  response : Option Record
  error : Option UErr
  written : Option Record
deriving DecidableEq

/-- `Update(collection, id, data)`.  `data = none` is a nil body map (the
framework passes nil when the request carried no body).  `findResult` is
the outcome of `connection.FindId(id).One` (`none` = `findErr != nil`),
`updateFails` whether `connection.UpdateId` errors. -/
def Update (collection id : String) (data : Option Record) (now : Int)
    (findResult : Option Record) (updateFails : Bool) : UpdateResult :=
  match data with
  | none => ⟨none, some ⟨400, "Request body cannot be empty for update requests."⟩, none⟩
  | some d =>
    let d1 := setVal d UpdatedAt (Val.vInt32 (int32wrap now))
    match findResult with
    | none => ⟨none, some ⟨404, "Item not found."⟩, none⟩
    | some objectToUpdate =>
      let merged := mergeInto objectToUpdate d1
      if updateFails then
        ⟨none,
         some ⟨500, "Updating '" ++ collection ++ "' with id '" ++ id ++ "' failed."⟩,
         some merged⟩
      else
        ⟨some [(UpdatedAt, (getVal d1 UpdatedAt).getD (Val.vStr ""))], none, some merged⟩

/-! ### Delete (part_000 lines 293-315 and, second variant, 776-790) -/

/-- `Delete(collection, id)`, first variant: any `RemoveId` failure is
reported as 404 (with a message copied from `Update`). -/
def Delete (removeErr : Option MgoErr) (collection id : String) :
    Option Record × Option UErr :=
  match removeErr with
  | some _ =>
      (none, some ⟨404, "Updating '" ++ collection ++ "' with id '" ++ id ++ "' failed."⟩)
  | none => (none, none)

/-- `Delete(collection, id)`, second variant (lines 776-790): same
decision, message carries the driver error's text. -/
def DeleteV2 (removeErr : Option MgoErr) (collection id : String) :
    Option Record × Option UErr :=
  match removeErr with
  | some e => (none, some ⟨404, "Deleting item failed. Reason: " ++ mgoMsg e⟩)
  | none => (none, none)

/-! ### ValidateInput (interceptors.go lines 25-37) -/

/-- `restrictedFields` (interceptors.go). -/
def restrictedFields : List String := [ID, CreatedAt, UpdatedAt]

/-- The loop of `ValidateInput`: first restricted field present in the
body yields the error. -/
def checkRestricted : List String → Record → Option UErr
  | [], _ => none
  | f :: rest, body =>
    if (getVal body f).isSome then
      some ⟨400, "Input cannot contain '" ++ f ++ "' field."⟩
    else checkRestricted rest body

/-- `ValidateInput`: reject a request body containing a restricted field. -/
def ValidateInput (body : Record) : Option UErr :=
  checkRestricted restrictedFields body

/-! ### Lemmas about record maps -/

theorem getVal_setVal_same (r : Record) (k : String) (v : Val) :
    getVal (setVal r k v) k = some v := by
  induction r with
  | nil => simp [setVal, getVal]
  | cons kv rest ih =>
    by_cases h : kv.1 = k
    · simp [setVal, h, getVal]
    · simp [setVal, h, getVal, ih]

theorem getVal_setVal_ne (r : Record) (k k' : String) (v : Val) (h : k' ≠ k) :
    getVal (setVal r k' v) k = getVal r k := by
  induction r with
  | nil => simp [setVal, getVal, h]
  | cons kv rest ih =>
    by_cases hk : kv.1 = k'
    · simp [setVal, hk, getVal, h]
    · simp only [setVal, hk, if_false]
      by_cases hk2 : kv.1 = k
      · simp [getVal, hk2]
      · simp [getVal, hk2, ih]

theorem getVal_eq_none_iff (r : Record) (k : String) :
    getVal r k = none ↔ k ∉ r.map Prod.fst := by
  induction r with
  | nil => simp [getVal]
  | cons kv rest ih =>
    by_cases h : kv.1 = k
    · simp [getVal, h]
    · simp [getVal, h, ih, Ne.symm h]

theorem keys_setVal (r : Record) (k : String) (v : Val) :
    (setVal r k v).map Prod.fst =
      if k ∈ r.map Prod.fst then r.map Prod.fst else r.map Prod.fst ++ [k] := by
  induction r with
  | nil => simp [setVal]
  | cons kv rest ih =>
    by_cases h : kv.1 = k
    · simp [setVal, h]
    · by_cases hm : k ∈ rest.map Prod.fst
      · simp [setVal, h, ih, hm, Ne.symm h]
      · simp [setVal, h, ih, hm, Ne.symm h]

theorem nodup_keys_setVal (r : Record) (k : String) (v : Val)
    (h : (r.map Prod.fst).Nodup) : ((setVal r k v).map Prod.fst).Nodup := by
  rw [keys_setVal]
  by_cases hm : k ∈ r.map Prod.fst
  · simpa [hm] using h
  · simp [hm, List.nodup_append, h]

theorem getVal_mergeInto_not_mem (entries : Record) (base : Record) (k : String)
    (h : k ∉ entries.map Prod.fst) :
    getVal (mergeInto base entries) k = getVal base k := by
  induction entries generalizing base with
  | nil => rfl
  | cons kv rest ih =>
    simp only [List.map_cons, List.mem_cons] at h
    push_neg at h
    have step : mergeInto base (kv :: rest) = mergeInto (setVal base kv.1 kv.2) rest := rfl
    rw [step, ih _ h.2]
    exact getVal_setVal_ne base k kv.1 kv.2 (Ne.symm h.1)

theorem getVal_mergeInto_mem (entries : Record) (base : Record) (k : String) (v : Val)
    (hnd : (entries.map Prod.fst).Nodup) (h : getVal entries k = some v) :
    getVal (mergeInto base entries) k = some v := by
  induction entries generalizing base with
  | nil => simp [getVal] at h
  | cons kv rest ih =>
    simp only [List.map_cons, List.nodup_cons] at hnd
    have step : mergeInto base (kv :: rest) = mergeInto (setVal base kv.1 kv.2) rest := rfl
    by_cases hk : kv.1 = k
    · subst hk
      have hv : v = kv.2 := by simpa [getVal] using h.symm
      subst hv
      rw [step, getVal_mergeInto_not_mem _ _ _ hnd.1, getVal_setVal_same]
    · have h' : getVal rest k = some v := by
        simpa [getVal, hk] using h
      rw [step, ih _ hnd.2 h']

/-! ### Lemmas about retry -/

theorem retryGo_eq_firstHalt (f : Nat → Option MgoErr) :
    ∀ (fuel i : Nat),
      retryGo f fuel i = (f (firstHaltIndex f fuel i), firstHaltIndex f fuel i + 1) := by
  intro fuel
  induction fuel with
  | zero =>
    intro i
    cases h : f i with
    | none => simp [retryGo, firstHaltIndex, h]
    | some e => simp [retryGo, firstHaltIndex, h]
  | succ fuel' ih =>
    intro i
    cases h : f i with
    | none => simp [retryGo, firstHaltIndex, h]
    | some e =>
      by_cases he : e = MgoErr.notFound
      · simp [retryGo, firstHaltIndex, h, he]
      · simp only [retryGo, firstHaltIndex, h, he, if_false]
        exact ih (i + 1)

theorem retryGo_not_found (f : Nat → Option MgoErr) :
    ∀ (k i fuel : Nat), (k = 0 ∨ k ≤ fuel) →
      (∀ j, j < k → ∃ e, f (i + j) = some e ∧ e ≠ MgoErr.notFound) →
      f (i + k) = some MgoErr.notFound →
      retryGo f fuel i = (some MgoErr.notFound, i + k + 1) := by
  intro k
  induction k with
  | zero =>
    intro i fuel _ _ hnf
    simp only [Nat.add_zero] at hnf
    cases fuel with
    | zero => simp [retryGo, hnf]
    | succ fuel' => simp [retryGo, hnf]
  | succ k' ih =>
    intro i fuel hle hfail hnf
    obtain ⟨e, he, hne⟩ := hfail 0 (Nat.succ_pos k')
    simp only [Nat.add_zero] at he
    have hfuel : ∃ fuel', fuel = fuel' + 1 := by
      rcases hle with h0 | hk
      · exact absurd h0 (Nat.succ_ne_zero k')
      · rcases fuel with _ | fuel'
        · exact absurd hk (by omega)
        · exact ⟨fuel', rfl⟩
    obtain ⟨fuel', rfl⟩ := hfuel
    have step : retryGo f (fuel' + 1) i = retryGo f fuel' (i + 1) := by
      simp [retryGo, he, hne]
    rw [step]
    have := ih (i + 1) fuel' (by omega)
      (fun j hj => by
        have := hfail (j + 1) (by omega)
        simpa [Nat.add_assoc, Nat.add_comm 1 j] using this)
      (by
        have : i + 1 + k' = i + (k' + 1) := by omega
        rw [this]; exact hnf)
    rw [this]
    congr 1
    omega

/-! ### Claim theorems -/

/-- C1, counterexample: the claim "retry(5, f) returns nil as soon as
some attempt succeeds, and returns a non-nil error only when all 5
attempts fail" is false.  For the function whose first call fails with
the driver's not-found error and whose second call would succeed, some
attempt among the 5 succeeds, yet `retry` returns a non-nil error (it
stops at the not-found error after one call). -/
theorem retry_five_counterexample :
    (fun i => if i = 0 then some MgoErr.notFound else none) 1 = none
    ∧ (1 : Nat) < 5
    ∧ retry 5 (fun i => if i = 0 then some MgoErr.notFound else none)
        = some MgoErr.notFound
    ∧ retry 5 (fun i => if i = 0 then some MgoErr.notFound else none) ≠ none := by
  refine ⟨rfl, by decide, by decide, by decide⟩

/-- C1, amended: `retry(5, f)` calls `f` until an attempt succeeds or
fails with the driver's not-found error, or until the 5th attempt, and
returns that deciding attempt's result having made exactly that many
calls: nil as soon as an attempt succeeds, the not-found error
immediately when an attempt fails with it, and otherwise — when all 5
attempts fail with other errors — the 5th attempt's error. -/
theorem retry_five_characterization (f : Nat → Option MgoErr) :
    retryCount 5 f = (f (firstHaltIndex f 4 0), firstHaltIndex f 4 0 + 1)
    ∧ retry 5 f = f (firstHaltIndex f 4 0) := by
  have h : ((5 : Int) - 1).toNat = 4 := by decide
  have hc : retryCount 5 f = (f (firstHaltIndex f 4 0), firstHaltIndex f 4 0 + 1) := by
    rw [retryCount, h]
    exact retryGo_eq_firstHalt f 4 0
  exact ⟨hc, by rw [retry, hc]⟩

/-- C5: once an attempt fails with `mgo.ErrNotFound`, `retry` makes no
further attempt and returns that error immediately: if the first `k`
attempts fail with errors other than not-found, attempt `k + 1` is
reached (`k = 0` or `k ≤ attempts - 1`) and fails with not-found, then
`retry` returns the not-found error having made exactly `k + 1` calls. -/
theorem retry_not_found_stops (n : Int) (f : Nat → Option MgoErr) (k : Nat)
    (hk : k = 0 ∨ (k : Int) ≤ n - 1)
    (hfail : ∀ j, j < k → ∃ e, f j = some e ∧ e ≠ MgoErr.notFound)
    (hnf : f k = some MgoErr.notFound) :
    retryCount n f = (some MgoErr.notFound, k + 1) := by
  rw [retryCount]
  have hk' : k = 0 ∨ k ≤ (n - 1).toNat := by
    rcases hk with h | h
    · exact Or.inl h
    · exact Or.inr (by omega)
  have := retryGo_not_found f k 0 (n - 1).toNat hk'
    (fun j hj => by simpa using hfail j hj) (by simpa using hnf)
  simpa using this

/-- C5, witness: with 5 attempts, a first call failing with a transient
error and a second call failing with not-found, `retry` stops after the
second call and returns the not-found error. -/
theorem retry_not_found_stops_witness :
    retryCount 5 (fun j => if j = 0 then some (MgoErr.other "timeout") else some MgoErr.notFound)
      = (some MgoErr.notFound, 2) := by
  refine retry_not_found_stops 5 _ 1 (Or.inr (by decide)) ?_ rfl
  intro j hj
  have hj0 : j = 0 := Nat.lt_one_iff.mp hj
  subst hj0
  exact ⟨MgoErr.other "timeout", rfl, by decide⟩

/-- C9: whenever the driver's remove fails — for any reason, not only a
missing id — both variants of `Delete` return a not-found (404) error,
and when it succeeds they return no error; in particular neither variant
ever returns a 500 result.  The error is fully characterized. -/
theorem delete_always_not_found (removeErr : Option MgoErr) (collection id : String) :
    Delete removeErr collection id
      = (none, removeErr.map fun _ =>
          ⟨404, "Updating '" ++ collection ++ "' with id '" ++ id ++ "' failed."⟩)
    ∧ DeleteV2 removeErr collection id
      = (none, removeErr.map fun e =>
          ⟨404, "Deleting item failed. Reason: " ++ mgoMsg e⟩) := by
  cases removeErr with
  | none => exact ⟨rfl, rfl⟩
  | some e => exact ⟨rfl, rfl⟩

/-- C8: `ValidateInput` returns an error exactly when the body contains
one of `_id`, `createdAt`, `updatedAt`; any error it returns is a 400
whose message names an offending restricted field present in the body. -/
theorem validate_input_iff (body : Record) :
    ((ValidateInput body).isSome
      ↔ ((getVal body ID).isSome ∨ (getVal body CreatedAt).isSome
          ∨ (getVal body UpdatedAt).isSome))
    ∧ (∀ e, ValidateInput body = some e →
        e.code = 400
        ∧ ∃ f, (f = ID ∨ f = CreatedAt ∨ f = UpdatedAt)
            ∧ (getVal body f).isSome
            ∧ e.message = "Input cannot contain '" ++ f ++ "' field.") := by
  by_cases h1 : (getVal body ID).isSome
  · have hval : ValidateInput body
        = some ⟨400, "Input cannot contain '" ++ ID ++ "' field."⟩ := by
      simp only [ValidateInput, restrictedFields, checkRestricted, h1, if_true]
    constructor
    · simp [hval, h1]
    · intro e he
      rw [hval] at he
      cases Option.some.inj he
      exact ⟨rfl, ID, Or.inl rfl, h1, rfl⟩
  · by_cases h2 : (getVal body CreatedAt).isSome
    · have hval : ValidateInput body
          = some ⟨400, "Input cannot contain '" ++ CreatedAt ++ "' field."⟩ := by
        simp only [ValidateInput, restrictedFields, checkRestricted, h1, h2,
          if_true, if_false, Bool.false_eq_true]
      constructor
      · simp [hval, h2]
      · intro e he
        rw [hval] at he
        cases Option.some.inj he
        exact ⟨rfl, CreatedAt, Or.inr (Or.inl rfl), h2, rfl⟩
    · by_cases h3 : (getVal body UpdatedAt).isSome
      · have hval : ValidateInput body
            = some ⟨400, "Input cannot contain '" ++ UpdatedAt ++ "' field."⟩ := by
          simp only [ValidateInput, restrictedFields, checkRestricted, h1, h2, h3,
            if_true, if_false, Bool.false_eq_true]
        constructor
        · simp [hval, h3]
        · intro e he
          rw [hval] at he
          cases Option.some.inj he
          exact ⟨rfl, UpdatedAt, Or.inr (Or.inr rfl), h3, rfl⟩
      · have hval : ValidateInput body = none := by
          simp only [ValidateInput, restrictedFields, checkRestricted, h1, h2, h3,
            if_false, Bool.false_eq_true]
        constructor
        · simp [hval, h1, h2, h3]
        · intro e he
          rw [hval] at he
          exact absurd he (by simp)

/-- C8, witness: a body containing `createdAt` is rejected with a 400
naming that field. -/
theorem validate_input_iff_witness :
    (⟨400, "Input cannot contain 'createdAt' field."⟩ : UErr).code = 400
    ∧ ∃ f, (f = ID ∨ f = CreatedAt ∨ f = UpdatedAt)
        ∧ (getVal [("createdAt", Val.vFloat 0)] f).isSome
        ∧ (⟨400, "Input cannot contain 'createdAt' field."⟩ : UErr).message
            = "Input cannot contain '" ++ f ++ "' field." :=
  (validate_input_iff [("createdAt", Val.vFloat 0)]).2 _ (by decide)

/-- C2: whenever the parameter multimap contains both the key "where"
and the key "aggregate" — whatever the values bound to them — `Query`
returns the bad-request (400) conflict error before touching any
parameter value or the database. -/
theorem query_where_aggregate_bad_request (collection : String) (ps : Params)
    (db : QueryPlan → (Nat → Option MgoErr) × Option (List Record))
    (hw : (lookupParam ps "where").isSome)
    (ha : (lookupParam ps "aggregate").isSome) :
    Query collection ps db
      = some (⟨none⟩,
          some ⟨400, "Where and aggregate parameters cannot be used at the same request."⟩) := by
  rw [Query, if_pos]
  simp [ha, hw]

/-- C2, witness: both keys present — one bound to a malformed value, the
other to a well-formed one — still yield the 400 conflict error. -/
theorem query_where_aggregate_bad_request_witness :
    Query "items"
        [("where", [JsonInput.valid (some (JVal.num 1))]),
         ("aggregate", [JsonInput.malformed "unexpected end of JSON input"])]
        (fun _ => (fun _ => none, none))
      = some (⟨none⟩,
          some ⟨400, "Where and aggregate parameters cannot be used at the same request."⟩) :=
  query_where_aggregate_bad_request "items" _ _ (by decide) (by decide)

/-- C3, counterexample: the claim "the surfaced error is that of the
first parameter that failed to parse, in the order where, aggregate,
sort, limit, skip" is false.  With both `where` and `sort` malformed,
the surfaced error is sort's, not where's (each later error check
overwrites the error variable). -/
theorem query_first_parse_error_counterexample :
    ¬ ((Query "items"
          [("where", [JsonInput.malformed "unexpected end of JSON input"]),
           ("sort", [JsonInput.malformed "invalid character"])]
          (fun _ => (fun _ => none, none))).map Prod.snd
        = some (some ⟨400,
            "Parsing where parameter failed. Reason: unexpected end of JSON input"⟩)) := by
  decide

/-- C3, amended: when several of the query parameters fail to parse in
the same `Query` call (with the guard on both keys being present not
triggered, and every present parameter bound to a non-empty value list),
the surfaced error is that of the LAST failing parameter in the order
the error checks are written — aggregate, where, sort, limit, skip — so
skip's error if skip failed, else limit's, else sort's, else where's,
else aggregate's, each later check overwriting the error variable. -/
theorem query_last_parse_error_surfaced (collection : String) (ps : Params)
    (db : QueryPlan → (Nat → Option MgoErr) × Option (List Record))
    (whereV aggV : Option JVal) (hasWhere hasAgg hasSort hasLimit hasSkip : Bool)
    (sortV : String) (limitV skipV : Int)
    (whereErr aggErr sortErr limitErr skipErr : Option UErr) (e : UErr)
    (hguard : ¬ ((lookupParam ps "aggregate").isSome ∧ (lookupParam ps "where").isSome))
    (hw : extractJsonParameter ps "where" = some (whereV, hasWhere, whereErr))
    (ha : extractJsonParameter ps "aggregate" = some (aggV, hasAgg, aggErr))
    (hs : extractStringParameter ps "sort" = some (sortV, hasSort, sortErr))
    (hl : extractIntParameter ps "limit" = some (limitV, hasLimit, limitErr))
    (hk : extractIntParameter ps "skip" = some (skipV, hasSkip, skipErr))
    (hchain : overrideErr (overrideErr (overrideErr
        (overrideErr (overrideErr none aggErr) whereErr) sortErr) limitErr) skipErr
      = some e) :
    Query collection ps db = some (⟨none⟩, some e) := by
  rw [Query, if_neg (by simpa using hguard)]
  rw [hw, ha, hs, hl, hk]
  simp only [hchain]

/-- C3 (amended), witness: with a mistyped `limit` and a malformed
`skip`, both fail, and the surfaced error is skip's (the later check). -/
theorem query_last_parse_error_surfaced_witness :
    Query "items"
        [("limit", [JsonInput.valid (some (JVal.str "x"))]),
         ("skip", [JsonInput.malformed "invalid character 'x'"])]
        (fun _ => (fun _ => none, none))
      = some (⟨none⟩, some ⟨400, "The key 'skip' must be an integer."⟩) :=
  query_last_parse_error_surfaced "items" _ _
    none none false false false true true "" 0 0
    none none none (some ⟨400, "The key 'limit' must be an integer."⟩)
    (some ⟨400, "The key 'skip' must be an integer."⟩) _
    (by decide) rfl rfl rfl rfl rfl rfl

/-- C10: `extractIntParameter` accepts every JSON number, including
non-integral ones, truncating toward zero (`truncQ`), and reports the
400 error "must be an integer" (naming the key) exactly when the decoded
first value of the parameter is not a number — including JSON null,
non-number values, and failed decodes, which leave a nil value. -/
theorem extract_int_parameter_truncates (ps : Params) (key : String)
    (p : JsonInput) (rest : List JsonInput)
    (hp : lookupParam ps key = some (p :: rest)) :
    (∀ q, p = JsonInput.valid (some (JVal.num q)) →
        extractIntParameter ps key = some (truncQ q, true, none))
    ∧ ((∀ q, p ≠ JsonInput.valid (some (JVal.num q))) →
        extractIntParameter ps key
          = some (0, true, some ⟨400, "The key '" ++ key ++ "' must be an integer."⟩)) := by
  constructor
  · intro q hq
    subst hq
    rw [extractIntParameter, hp]
  · intro hnq
    rw [extractIntParameter, hp]
    cases p with
    | malformed e => rfl
    | valid v =>
      cases v with
      | none => rfl
      | some jv =>
        cases jv with
        | num q => exact absurd rfl (hnq q)
        | str s => rfl
        | boolV b => rfl
        | arr raw => rfl
        | obj raw => rfl

/-- C10, witness: the parameter string "1.9" (a JSON number, decoded
exactly as 19/10) yields the int 1 with no error; "-1.9" (decoded as
-19/10) yields -1 — truncation toward zero, where floor division would
give -2; and a decoded string yields the "must be an integer" error
naming the key. -/
theorem extract_int_parameter_truncates_witness :
    extractIntParameter [("limit", [JsonInput.valid (some (JVal.num (mkRat 19 10)))])] "limit"
      = some (1, true, none)
    ∧ extractIntParameter [("limit", [JsonInput.valid (some (JVal.num (mkRat (-19) 10)))])]
        "limit" = some (-1, true, none)
    ∧ extractIntParameter [("skip", [JsonInput.valid (some (JVal.str "a"))])] "skip"
      = some (0, true, some ⟨400, "The key 'skip' must be an integer."⟩) := by
  refine ⟨?_, ?_, ?_⟩
  · have h := (extract_int_parameter_truncates
      [("limit", [JsonInput.valid (some (JVal.num (mkRat 19 10)))])] "limit"
      (JsonInput.valid (some (JVal.num (mkRat 19 10)))) [] rfl).1 (mkRat 19 10) rfl
    rw [h]
    decide
  · have h := (extract_int_parameter_truncates
      [("limit", [JsonInput.valid (some (JVal.num (mkRat (-19) 10)))])] "limit"
      (JsonInput.valid (some (JVal.num (mkRat (-19) 10)))) [] rfl).1 (mkRat (-19) 10) rfl
    rw [h]
    decide
  · exact (extract_int_parameter_truncates
      [("skip", [JsonInput.valid (some (JVal.str "a"))])] "skip"
      (JsonInput.valid (some (JVal.str "a"))) [] rfl).2 (by intro q h; cases h)

/-- C6: a successful `Create` answers with the input's `_id` when one was
supplied and with the freshly generated identifier otherwise, and with
equal `createdAt` and `updatedAt` stamps. -/
theorem create_id_timestamps (collection : String) (data : Record) (now : Int)
    (freshId : String) (insertAttempts : Nat → Option MgoErr)
    (hok : retry 5 insertAttempts = none) :
    ∃ r, Create collection data now freshId insertAttempts = (some r, none)
      ∧ getVal r CreatedAt = some (Val.vFloat (now : ℚ))
      ∧ getVal r UpdatedAt = some (Val.vFloat (now : ℚ))
      ∧ getVal r CreatedAt = getVal r UpdatedAt
      ∧ (∀ v, getVal data ID = some v → getVal r ID = some v)
      ∧ (getVal data ID = none → getVal r ID = some (Val.vStr freshId)) := by
  rw [Create]
  cases hid : getVal data ID with
  | some v =>
    rw [hok]
    refine ⟨_, rfl, rfl, rfl, rfl, ?_, ?_⟩
    · intro v' hv'
      cases Option.some.inj hv'
      have h2 : getVal (setVal (setVal data CreatedAt (Val.vFloat (now : ℚ)))
          UpdatedAt (Val.vFloat (now : ℚ))) ID = some v := by
        rw [getVal_setVal_ne _ _ _ _ (by decide : UpdatedAt ≠ ID),
            getVal_setVal_ne _ _ _ _ (by decide : CreatedAt ≠ ID), hid]
      show some ((getVal (setVal (setVal data CreatedAt (Val.vFloat (now : ℚ)))
          UpdatedAt (Val.vFloat (now : ℚ))) ID).getD (Val.vStr "")) = some v
      rw [h2]
      rfl
    · intro hnone
      exact Option.noConfusion hnone
  | none =>
    rw [hok]
    refine ⟨_, rfl, rfl, rfl, rfl, ?_, ?_⟩
    · intro v' hv'
      exact Option.noConfusion hv'
    · intro _
      have h2 : getVal (setVal (setVal (setVal data ID (Val.vStr freshId))
          CreatedAt (Val.vFloat (now : ℚ))) UpdatedAt (Val.vFloat (now : ℚ))) ID
          = some (Val.vStr freshId) := by
        rw [getVal_setVal_ne _ _ _ _ (by decide : UpdatedAt ≠ ID),
            getVal_setVal_ne _ _ _ _ (by decide : CreatedAt ≠ ID),
            getVal_setVal_same]
      show some ((getVal (setVal (setVal (setVal data ID (Val.vStr freshId))
          CreatedAt (Val.vFloat (now : ℚ))) UpdatedAt (Val.vFloat (now : ℚ))) ID).getD
            (Val.vStr "")) = some (Val.vStr freshId)
      rw [h2]
      rfl

/-- C6, witness: creating a record without an id at unix time 7 with
fresh identifier "abc" succeeds with `_id = "abc"` and equal stamps. -/
theorem create_id_timestamps_witness :
    ∃ r, Create "items" [("name", Val.vStr "n")] 7 "abc" (fun _ => none) = (some r, none)
      ∧ getVal r CreatedAt = some (Val.vFloat ((7 : Int) : ℚ))
      ∧ getVal r UpdatedAt = some (Val.vFloat ((7 : Int) : ℚ))
      ∧ getVal r CreatedAt = getVal r UpdatedAt
      ∧ (∀ v, getVal [("name", Val.vStr "n")] ID = some v → getVal r ID = some v)
      ∧ (getVal [("name", Val.vStr "n")] ID = none → getVal r ID = some (Val.vStr "abc")) :=
  create_id_timestamps "items" [("name", Val.vStr "n")] 7 "abc" (fun _ => none) rfl

/-- C7: `Update` called with an empty request body (the framework passes
a nil body map when the request carried no body) returns the 400 error
without attempting any driver call, in particular without writing. -/
theorem update_nil_body_bad_request (collection id : String) (now : Int)
    (findResult : Option Record) (updateFails : Bool) :
    Update collection id none now findResult updateFails
      = ⟨none, some ⟨400, "Request body cannot be empty for update requests."⟩, none⟩ :=
  rfl

/-- C4, counterexample: the claim "a successful Update writes back the
body's value for every field the body mentions, and an updatedAt
strictly greater than the record's previous updatedAt" is false.  With
body `{updatedAt: 999}`, existing record `{_id: "1", updatedAt: int32 5,
color: "blue"}` and current unix time 5 (same second as the previous
update), the written record carries `updatedAt = int32 5`: not the
body's 999, and not greater than the previous stamp. -/
theorem update_merge_counterexample :
    ¬ (∃ merged,
        (Update "items" "1" (some [("updatedAt", Val.vFloat 999)]) 5
            (some [("_id", Val.vStr "1"), ("updatedAt", Val.vInt32 5), ("color", Val.vStr "blue")])
            false).written = some merged
        ∧ getVal merged "updatedAt" = some (Val.vFloat 999)
        ∧ (∃ t0 t1,
            getVal [("_id", Val.vStr "1"), ("updatedAt", Val.vInt32 5), ("color", Val.vStr "blue")]
              "updatedAt" = some (Val.vInt32 t0)
            ∧ getVal merged "updatedAt" = some (Val.vInt32 t1)
            ∧ t0 < t1)) := by
  rintro ⟨merged, hm, hv, -⟩
  have hE : (Update "items" "1" (some [("updatedAt", Val.vFloat 999)]) 5
      (some [("_id", Val.vStr "1"), ("updatedAt", Val.vInt32 5), ("color", Val.vStr "blue")])
      false).written
      = some [("_id", Val.vStr "1"), ("updatedAt", Val.vInt32 5), ("color", Val.vStr "blue")] := by
    decide
  rw [hE] at hm
  cases Option.some.inj hm
  revert hv
  decide

/-- C4, amended: for every existing record and non-empty update body
(with distinct keys, as a Go map has), a successful `Update` writes back
a record that keeps unchanged every existing field other than
`updatedAt` that the body does not mention, takes the body's value for
every body field other than `updatedAt`, and carries
`updatedAt = int32(now)` — the stamp overwrites a body-supplied
`updatedAt` and exceeds the previous `updatedAt` only when the truncated
current time does (updates within the same second leave it equal). -/
theorem update_merge_amended (collection id : String) (data existing : Record)
    (now : Int) (hne : data ≠ []) (hnd : (data.map Prod.fst).Nodup) :
    ∃ merged,
      Update collection id (some data) now (some existing) false
        = ⟨some [(UpdatedAt, Val.vInt32 (int32wrap now))], none, some merged⟩
      ∧ (∀ k, k ≠ UpdatedAt → getVal data k = none →
          getVal merged k = getVal existing k)
      ∧ (∀ k v, k ≠ UpdatedAt → getVal data k = some v → getVal merged k = some v)
      ∧ getVal merged UpdatedAt = some (Val.vInt32 (int32wrap now))
      ∧ (∀ t0, getVal existing UpdatedAt = some (Val.vInt32 t0) → t0 < int32wrap now →
          ∃ t1, getVal merged UpdatedAt = some (Val.vInt32 t1) ∧ t0 < t1) := by
  refine ⟨mergeInto existing (setVal data UpdatedAt (Val.vInt32 (int32wrap now))),
    ?_, ?_, ?_, ?_, ?_⟩
  · show (⟨some [(UpdatedAt,
        (getVal (setVal data UpdatedAt (Val.vInt32 (int32wrap now))) UpdatedAt).getD
          (Val.vStr ""))], none,
        some (mergeInto existing (setVal data UpdatedAt (Val.vInt32 (int32wrap now))))⟩
        : UpdateResult)
      = ⟨some [(UpdatedAt, Val.vInt32 (int32wrap now))], none,
         some (mergeInto existing (setVal data UpdatedAt (Val.vInt32 (int32wrap now))))⟩
    rw [getVal_setVal_same]
    rfl
  · intro k hk hnone
    have h1 : getVal (setVal data UpdatedAt (Val.vInt32 (int32wrap now))) k = none := by
      rw [getVal_setVal_ne _ _ _ _ (Ne.symm hk), hnone]
    exact getVal_mergeInto_not_mem _ existing k ((getVal_eq_none_iff _ k).mp h1)
  · intro k v hk hv
    have h1 : getVal (setVal data UpdatedAt (Val.vInt32 (int32wrap now))) k = some v := by
      rw [getVal_setVal_ne _ _ _ _ (Ne.symm hk), hv]
    exact getVal_mergeInto_mem _ existing k v (nodup_keys_setVal data _ _ hnd) h1
  · exact getVal_mergeInto_mem _ existing UpdatedAt _
      (nodup_keys_setVal data _ _ hnd) (getVal_setVal_same data UpdatedAt _)
  · intro t0 _ hlt
    exact ⟨int32wrap now,
      getVal_mergeInto_mem _ existing UpdatedAt _
        (nodup_keys_setVal data _ _ hnd) (getVal_setVal_same data UpdatedAt _), hlt⟩

/-- C4 (amended), witness: updating `{_id: "42", updatedAt: int32 3,
size: 7}` with body `{color: "red"}` at unix time 10 keeps `_id` and
`size`, adds `color`, and stamps `updatedAt = int32 10 > 3`. -/
theorem update_merge_amended_witness :
    ∃ merged,
      Update "items" "42" (some [("color", Val.vStr "red")]) 10
          (some [("_id", Val.vStr "42"), ("updatedAt", Val.vInt32 3), ("size", Val.vFloat 7)])
          false
        = ⟨some [(UpdatedAt, Val.vInt32 (int32wrap 10))], none, some merged⟩
      ∧ (∀ k, k ≠ UpdatedAt → getVal [("color", Val.vStr "red")] k = none →
          getVal merged k
            = getVal [("_id", Val.vStr "42"), ("updatedAt", Val.vInt32 3),
                ("size", Val.vFloat 7)] k)
      ∧ (∀ k v, k ≠ UpdatedAt → getVal [("color", Val.vStr "red")] k = some v →
          getVal merged k = some v)
      ∧ getVal merged UpdatedAt = some (Val.vInt32 (int32wrap 10))
      ∧ (∀ t0, getVal [("_id", Val.vStr "42"), ("updatedAt", Val.vInt32 3),
            ("size", Val.vFloat 7)] UpdatedAt = some (Val.vInt32 t0) →
          t0 < int32wrap 10 →
          ∃ t1, getVal merged UpdatedAt = some (Val.vInt32 t1) ∧ t0 < t1) :=
  update_merge_amended "items" "42" [("color", Val.vStr "red")]
    [("_id", Val.vStr "42"), ("updatedAt", Val.vInt32 3), ("size", Val.vFloat 7)] 10
    (by decide) (by decide)

end Mongoutil
